import Mathlib

/-!
Shallow embedding of the push-box (Sokoban) core of `src/main.rs`:
the grid model, `Game::step` (move/push logic), `Game::win`
(win check + level advance) and `MapAssetsLoader::load` (level parsing).

Coordinates are modelled as `Int` pairs (the source uses `Vec2` of `f32`,
but every reachable coordinate is a small integer, exactly representable);
the `x as usize` cast of the source (saturating at 0 for negatives) is
`Int.toNat`.  The 20×20 cell array `map[x][y]` is a total function
`Nat × Nat → Nat`; writes are `Function.update`.
-/

/-- `const MAP_SIZE: usize = 20` -/
def MAP_SIZE : Nat := 20

/-- `const GAME_LEVEL_COUNT: usize = 50` -/
def GAME_LEVEL_COUNT : Nat := 50

def BLOCK_TYPE_GROUND : Nat := 2
def BLOCK_TYPE_BOX : Nat := 3
def BLOCK_TYPE_AIM : Nat := 4
def BLOCK_TYPE_PLAYER_DOWN : Nat := 5
def BLOCK_TYPE_PLAYER_RIGHT : Nat := 6
def BLOCK_TYPE_PLAYER_LEFT : Nat := 7
def BLOCK_TYPE_PLAYER_UP : Nat := 8
def BLOCK_TYPE_BOX_AIM : Nat := 9

/-- `enum GameStatus { StartPlaying, Playing }` -/
inductive GameStatus
  | StartPlaying
  | Playing
  deriving DecidableEq, Repr

/-- `struct Game` (the `Resource` holding the puzzle state).
`action` stands for the `Option<KeyCode>` field; the claims only need
that `step` leaves it unchanged, so the key codes are numbered. -/
structure Game where
  update : Bool
  level : Nat
  status : GameStatus
  map : Nat × Nat → Nat
  position : Int × Int
  position_type : Nat
  action : Option Nat

/-- Vec2 addition, `self.position + action`. -/
def vadd (p a : Int × Int) : Int × Int := (p.1 + a.1, p.2 + a.2)

/-- `x.clamp(0., (MAP_SIZE - 1) as f32)` on an integral coordinate. -/
def clampCoord (x : Int) : Int := min (max x 0) ((MAP_SIZE : Int) - 1)

/-- The `as usize` casts used to index `self.map` (Rust's float→usize
cast saturates below at 0, as `Int.toNat` does). -/
def idx (p : Int × Int) : Nat × Nat := (p.1.toNat, p.2.toNat)

/-- Coordinate pair lies in `[0,MAP_SIZE)²`; equivalent to the source's
`clamp`-based bounds test succeeding on both axes. -/
def inRange (p : Int × Int) : Prop :=
  0 ≤ p.1 ∧ p.1 < (MAP_SIZE : Int) ∧ 0 ≤ p.2 ∧ p.2 < (MAP_SIZE : Int)

instance (p : Int × Int) : Decidable (inRange p) := by
  unfold inRange; infer_instance

/-- `Game::get_player_type` — the source's `match` on
`(action.x as i32, action.y as i32)`, written as the equivalent chain of
equality tests on the (integral) action vector. -/
def get_player_type (action : Int × Int) : Nat :=
  if action = (1, 0) then BLOCK_TYPE_PLAYER_LEFT
  else if action = (-1, 0) then BLOCK_TYPE_PLAYER_RIGHT
  else if action = (0, 1) then BLOCK_TYPE_PLAYER_UP
  else if action = (0, -1) then BLOCK_TYPE_PLAYER_DOWN
  else BLOCK_TYPE_PLAYER_UP

/-- `Game::step`.  The two `if` blocks of the source are sequential (not
`else if`), so the second block is evaluated on the state `g1` left by
the first; all reads and writes keep the source's order (in the push
block, `position_type` is read out of the map *after* the
`map[position] = position_type` write, and the `next2` cell is read
again after the `map[next] = player` write, exactly as in the source). -/
def Game.step (g : Game) (action : Int × Int) : Game :=
  let next_position := vadd g.position action
  if clampCoord next_position.1 ≠ next_position.1 ∨
      clampCoord next_position.2 ≠ next_position.2 then g
  else
    let g1 :=
      if g.map (idx next_position) = BLOCK_TYPE_GROUND ∨
          g.map (idx next_position) = BLOCK_TYPE_AIM then
        { g with
          map := Function.update (Function.update g.map (idx g.position) g.position_type)
                   (idx next_position) (get_player_type action)
          position_type :=
            Function.update g.map (idx g.position) g.position_type (idx next_position)
          position := next_position
          update := true }
      else g
    if g1.map (idx next_position) = BLOCK_TYPE_BOX ∨
        g1.map (idx next_position) = BLOCK_TYPE_BOX_AIM then
      let next2_position := vadd next_position action
      if clampCoord next2_position.1 ≠ next2_position.1 ∨
          clampCoord next2_position.2 ≠ next2_position.2 then g1
      else
        if g1.map (idx next2_position) = BLOCK_TYPE_GROUND ∨
            g1.map (idx next2_position) = BLOCK_TYPE_AIM then
          let m1 := Function.update g1.map (idx g1.position) g1.position_type
          let pt := if m1 (idx next_position) = BLOCK_TYPE_BOX
                    then BLOCK_TYPE_GROUND else BLOCK_TYPE_AIM
          let m2 := Function.update m1 (idx next_position) (get_player_type action)
          let m3 := Function.update m2 (idx next2_position)
                      (if m2 (idx next2_position) = BLOCK_TYPE_GROUND
                       then BLOCK_TYPE_BOX else BLOCK_TYPE_BOX_AIM)
          { g1 with
            map := m3
            position_type := pt
            position := next_position
            update := true }
        else g1
    else g1

/-- `Game::win` — scans all cells, returns `false` (state untouched) as
soon as a plain `BLOCK_TYPE_BOX` is found; otherwise advances the level
(wrapping past `GAME_LEVEL_COUNT` to 1), marks `update`, and resets the
status to `StartPlaying`, returning `true`. -/
def Game.win (g : Game) : Bool × Game :=
  if (List.range MAP_SIZE).any (fun i =>
      (List.range MAP_SIZE).any (fun j => g.map (i, j) == BLOCK_TYPE_BOX)) then
    (false, g)
  else
    let level1 := g.level + 1
    (true, { g with
             level := if level1 > GAME_LEVEL_COUNT then 1 else level1
             update := true
             status := GameStatus.StartPlaying })

/-! ### Basic facts about the bounds test, directions and indices -/

/-- The four direction vectors dispatched by `Game::update`
(`ArrowLeft ↦ (-1,0)`, `ArrowRight ↦ (1,0)`, `ArrowUp ↦ (0,1)`,
`ArrowDown ↦ (0,-1)`). -/
def isDir (a : Int × Int) : Prop :=
  a = (1, 0) ∨ a = (-1, 0) ∨ a = (0, 1) ∨ a = (0, -1)

instance (a : Int × Int) : Decidable (isDir a) := by
  unfold isDir; infer_instance

/-- One of the four cell values the player marker can take. -/
def isPlayerMarker (v : Nat) : Prop :=
  v = BLOCK_TYPE_PLAYER_DOWN ∨ v = BLOCK_TYPE_PLAYER_RIGHT ∨
  v = BLOCK_TYPE_PLAYER_LEFT ∨ v = BLOCK_TYPE_PLAYER_UP

instance (v : Nat) : Decidable (isPlayerMarker v) := by
  unfold isPlayerMarker; infer_instance

lemma get_player_type_isPlayerMarker (a : Int × Int) :
    isPlayerMarker (get_player_type a) := by
  unfold get_player_type; split_ifs <;> decide

lemma get_player_type_ne_box (a : Int × Int) :
    get_player_type a ≠ BLOCK_TYPE_BOX ∧ get_player_type a ≠ BLOCK_TYPE_BOX_AIM := by
  unfold get_player_type; split_ifs <;> decide

lemma clampTest_of_not_inRange {p : Int × Int} (h : ¬ inRange p) :
    clampCoord p.1 ≠ p.1 ∨ clampCoord p.2 ≠ p.2 := by
  unfold inRange at h; unfold clampCoord MAP_SIZE at *; omega

lemma not_clampTest_of_inRange {p : Int × Int} (h : inRange p) :
    ¬ (clampCoord p.1 ≠ p.1 ∨ clampCoord p.2 ≠ p.2) := by
  simp only [inRange, MAP_SIZE] at h
  simp only [clampCoord, MAP_SIZE]
  push_neg
  omega

lemma idx_ne_of_dir {p a : Int × Int} (hd : isDir a) (hp : inRange p)
    (hq : inRange (vadd p a)) : idx p ≠ idx (vadd p a) := by
  obtain ⟨x, y⟩ := p
  intro h
  rcases hd with rfl | rfl | rfl | rfl <;>
    (simp only [vadd, inRange, MAP_SIZE, idx, Prod.mk.injEq] at hp hq h; omega)

lemma idx_ne_of_dir2 {p a : Int × Int} (hd : isDir a) (hp : inRange p)
    (hq : inRange (vadd (vadd p a) a)) : idx p ≠ idx (vadd (vadd p a) a) := by
  obtain ⟨x, y⟩ := p
  intro h
  rcases hd with rfl | rfl | rfl | rfl <;>
    (simp only [vadd, inRange, MAP_SIZE, idx, Prod.mk.injEq] at hp hq h; omega)

/-! ### Characterization of the branches of `Game.step` -/

/-- Move target out of bounds: `step` returns with no change at all. -/
theorem step_out_of_range (g : Game) (a : Int × Int)
    (h : ¬ inRange (vadd g.position a)) : g.step a = g := by
  unfold Game.step
  simp only [if_pos (clampTest_of_not_inRange h)]

/-- Plain step into Floor/Target: the closed form of the state `step`
produces. -/
theorem step_plain_eq (g : Game) (a : Int × Int) (hd : isDir a)
    (hp : inRange g.position) (hn : inRange (vadd g.position a))
    (hc : g.map (idx (vadd g.position a)) = BLOCK_TYPE_GROUND ∨
          g.map (idx (vadd g.position a)) = BLOCK_TYPE_AIM) :
    g.step a =
      { g with
        map := Function.update (Function.update g.map (idx g.position) g.position_type)
                 (idx (vadd g.position a)) (get_player_type a)
        position_type := g.map (idx (vadd g.position a))
        position := vadd g.position a
        update := true } := by
  have hne := idx_ne_of_dir hd hp hn
  have hread : Function.update g.map (idx g.position) g.position_type
      (idx (vadd g.position a)) = g.map (idx (vadd g.position a)) :=
    Function.update_noteq (Ne.symm hne) _ _
  unfold Game.step
  simp only [if_neg (not_clampTest_of_inRange hn), if_pos hc, hread,
    Function.update_same]
  rw [if_neg]
  rcases get_player_type_ne_box a with ⟨h3, h9⟩
  intro hcontra
  rcases hcontra with h | h
  · exact h3 h
  · exact h9 h

/-- Successful push: the closed form of the state `step` produces when
`grid[next]` holds a box and `grid[next2]` is free. -/
theorem step_push_eq (g : Game) (a : Int × Int) (hd : isDir a)
    (hp : inRange g.position) (hn : inRange (vadd g.position a))
    (hbox : g.map (idx (vadd g.position a)) = BLOCK_TYPE_BOX ∨
            g.map (idx (vadd g.position a)) = BLOCK_TYPE_BOX_AIM)
    (hn2 : inRange (vadd (vadd g.position a) a))
    (hfree : g.map (idx (vadd (vadd g.position a) a)) = BLOCK_TYPE_GROUND ∨
             g.map (idx (vadd (vadd g.position a) a)) = BLOCK_TYPE_AIM) :
    g.step a =
      { g with
        map := Function.update (Function.update
                 (Function.update g.map (idx g.position) g.position_type)
                 (idx (vadd g.position a)) (get_player_type a))
                 (idx (vadd (vadd g.position a) a))
                 (if g.map (idx (vadd (vadd g.position a) a)) = BLOCK_TYPE_GROUND
                  then BLOCK_TYPE_BOX else BLOCK_TYPE_BOX_AIM)
        position_type := if g.map (idx (vadd g.position a)) = BLOCK_TYPE_BOX
                         then BLOCK_TYPE_GROUND else BLOCK_TYPE_AIM
        position := vadd g.position a
        update := true } := by
  have hne01 := idx_ne_of_dir hd hp hn
  have hne12 := idx_ne_of_dir hd hn hn2
  have hne02 := idx_ne_of_dir2 hd hp hn2
  have hng : ¬ (g.map (idx (vadd g.position a)) = BLOCK_TYPE_GROUND ∨
      g.map (idx (vadd g.position a)) = BLOCK_TYPE_AIM) := by
    rcases hbox with h | h <;> rw [h] <;> decide
  simp only [Game.step]
  rw [if_neg (not_clampTest_of_inRange hn), if_neg hng, if_pos hbox,
    if_neg (not_clampTest_of_inRange hn2), if_pos hfree,
    Function.update_noteq (Ne.symm hne01), Function.update_noteq (Ne.symm hne12),
    Function.update_noteq (Ne.symm hne02)]

/-- Blocked push (cell beyond the box out of bounds or not free):
`step` is a full no-op. -/
theorem step_blocked_eq (g : Game) (a : Int × Int)
    (hn : inRange (vadd g.position a))
    (hbox : g.map (idx (vadd g.position a)) = BLOCK_TYPE_BOX ∨
            g.map (idx (vadd g.position a)) = BLOCK_TYPE_BOX_AIM)
    (hblk : ¬ inRange (vadd (vadd g.position a) a) ∨
            (g.map (idx (vadd (vadd g.position a) a)) ≠ BLOCK_TYPE_GROUND ∧
             g.map (idx (vadd (vadd g.position a) a)) ≠ BLOCK_TYPE_AIM)) :
    g.step a = g := by
  have hng : ¬ (g.map (idx (vadd g.position a)) = BLOCK_TYPE_GROUND ∨
      g.map (idx (vadd g.position a)) = BLOCK_TYPE_AIM) := by
    rcases hbox with h | h <;> rw [h] <;> decide
  unfold Game.step
  simp only [if_neg (not_clampTest_of_inRange hn), if_neg hng, if_pos hbox]
  rcases hblk with h | h
  · rw [if_pos (clampTest_of_not_inRange h)]
  · by_cases hr : inRange (vadd (vadd g.position a) a)
    · rw [if_neg (not_clampTest_of_inRange hr), if_neg (not_or.mpr h)]
    · rw [if_pos (clampTest_of_not_inRange hr)]

/-- Move target neither free nor a box (e.g. a Wall): `step` is a
no-op. -/
theorem step_wall_eq (g : Game) (a : Int × Int)
    (hn : inRange (vadd g.position a))
    (hc : g.map (idx (vadd g.position a)) ≠ BLOCK_TYPE_GROUND ∧
          g.map (idx (vadd g.position a)) ≠ BLOCK_TYPE_AIM ∧
          g.map (idx (vadd g.position a)) ≠ BLOCK_TYPE_BOX ∧
          g.map (idx (vadd g.position a)) ≠ BLOCK_TYPE_BOX_AIM) :
    g.step a = g := by
  obtain ⟨h2, h4, h3, h9⟩ := hc
  unfold Game.step
  simp only [if_neg (not_clampTest_of_inRange hn),
    if_neg (not_or.mpr ⟨h2, h4⟩), if_neg (not_or.mpr ⟨h3, h9⟩)]

/-! ### Concrete states used by the witnesses -/

/-- 20×20 map: player marker at (1,1), a box at (2,1), a target at
(3,1), ground everywhere else. -/
def mapA : Nat × Nat → Nat := fun p =>
  if p = (1, 1) then BLOCK_TYPE_PLAYER_DOWN
  else if p = (2, 1) then BLOCK_TYPE_BOX
  else if p = (3, 1) then BLOCK_TYPE_AIM
  else BLOCK_TYPE_GROUND

/-- Like `mapA` but with a wall right behind the box. -/
def mapB : Nat × Nat → Nat := fun p =>
  if p = (1, 1) then BLOCK_TYPE_PLAYER_DOWN
  else if p = (2, 1) then BLOCK_TYPE_BOX
  else if p = (3, 1) then 1
  else BLOCK_TYPE_GROUND

/-- Map with no plain box: the single box sits on its target. -/
def mapC : Nat × Nat → Nat := fun p =>
  if p = (1, 1) then BLOCK_TYPE_PLAYER_DOWN
  else if p = (2, 1) then BLOCK_TYPE_BOX_AIM
  else BLOCK_TYPE_GROUND

def gA : Game :=
  { update := false, level := 1, status := GameStatus.Playing,
    map := mapA, position := (1, 1), position_type := BLOCK_TYPE_GROUND,
    action := none }

def gB : Game :=
  { update := false, level := 1, status := GameStatus.Playing,
    map := mapB, position := (1, 1), position_type := BLOCK_TYPE_GROUND,
    action := none }

def gC : Game :=
  { update := false, level := 50, status := GameStatus.Playing,
    map := mapC, position := (0, 0), position_type := BLOCK_TYPE_GROUND,
    action := none }

/-! ### The claims -/

/-- Claim C1: for a state with position in `[0,N)²` and a direction `d`
whose target cell `next` is in bounds and holds Floor or Target,
`step d` performs a plain step — `position` becomes `next`, the vacated
cell receives the pre-move `covered_type` (the `position_type` field),
`covered_type` becomes the pre-move `grid[next]`, and the redraw flag
(`update`) is set. -/
theorem claim_C1 (g : Game) (a : Int × Int) (hd : isDir a)
    (hp : inRange g.position) (hn : inRange (vadd g.position a))
    (hc : g.map (idx (vadd g.position a)) = BLOCK_TYPE_GROUND ∨
          g.map (idx (vadd g.position a)) = BLOCK_TYPE_AIM) :
    (g.step a).position = vadd g.position a ∧
    (g.step a).map (idx g.position) = g.position_type ∧
    (g.step a).position_type = g.map (idx (vadd g.position a)) ∧
    (g.step a).update = true := by
  rw [step_plain_eq g a hd hp hn hc]
  dsimp only
  refine ⟨rfl, ?_, rfl, rfl⟩
  have hne := idx_ne_of_dir hd hp hn
  rw [Function.update_noteq hne, Function.update_same]

theorem claim_C1_witness :
    isDir (-1, 0) ∧ inRange gA.position ∧ inRange (vadd gA.position (-1, 0)) ∧
    (gA.map (idx (vadd gA.position (-1, 0))) = BLOCK_TYPE_GROUND ∨
     gA.map (idx (vadd gA.position (-1, 0))) = BLOCK_TYPE_AIM) ∧
    ((gA.step (-1, 0)).position = vadd gA.position (-1, 0) ∧
     (gA.step (-1, 0)).map (idx gA.position) = gA.position_type ∧
     (gA.step (-1, 0)).position_type = gA.map (idx (vadd gA.position (-1, 0))) ∧
     (gA.step (-1, 0)).update = true) := by
  have h1 : isDir (-1, 0) := by decide
  have h2 : inRange gA.position := by decide
  have h3 : inRange (vadd gA.position (-1, 0)) := by decide
  have h4 : gA.map (idx (vadd gA.position (-1, 0))) = BLOCK_TYPE_GROUND ∨
      gA.map (idx (vadd gA.position (-1, 0))) = BLOCK_TYPE_AIM := by decide
  exact ⟨h1, h2, h3, h4, claim_C1 gA (-1, 0) h1 h2 h3 h4⟩

/-- Claim C3: a successful push — `next` holds Box or Box-on-Target,
`next2` is in bounds and holds Floor or Target.  Afterwards the vacated
cell shows the pre-move `covered_type`, `covered_type` becomes Floor
(for a plain Box) or Target (for Box-on-Target), `grid[next]` becomes
the player marker, `grid[next2]` becomes Box (if it was Floor) or
Box-on-Target (if it was Target), `position` becomes `next` and the
update flag is set. -/
theorem claim_C3 (g : Game) (a : Int × Int) (hd : isDir a)
    (hp : inRange g.position) (hn : inRange (vadd g.position a))
    (hbox : g.map (idx (vadd g.position a)) = BLOCK_TYPE_BOX ∨
            g.map (idx (vadd g.position a)) = BLOCK_TYPE_BOX_AIM)
    (hn2 : inRange (vadd (vadd g.position a) a))
    (hfree : g.map (idx (vadd (vadd g.position a) a)) = BLOCK_TYPE_GROUND ∨
             g.map (idx (vadd (vadd g.position a) a)) = BLOCK_TYPE_AIM) :
    (g.step a).map (idx g.position) = g.position_type ∧
    ((g.map (idx (vadd g.position a)) = BLOCK_TYPE_BOX →
        (g.step a).position_type = BLOCK_TYPE_GROUND) ∧
     (g.map (idx (vadd g.position a)) = BLOCK_TYPE_BOX_AIM →
        (g.step a).position_type = BLOCK_TYPE_AIM)) ∧
    (g.step a).map (idx (vadd g.position a)) = get_player_type a ∧
    ((g.map (idx (vadd (vadd g.position a) a)) = BLOCK_TYPE_GROUND →
        (g.step a).map (idx (vadd (vadd g.position a) a)) = BLOCK_TYPE_BOX) ∧
     (g.map (idx (vadd (vadd g.position a) a)) = BLOCK_TYPE_AIM →
        (g.step a).map (idx (vadd (vadd g.position a) a)) = BLOCK_TYPE_BOX_AIM)) ∧
    (g.step a).position = vadd g.position a ∧
    (g.step a).update = true := by
  have hne01 := idx_ne_of_dir hd hp hn
  have hne12 := idx_ne_of_dir hd hn hn2
  have hne02 := idx_ne_of_dir2 hd hp hn2
  rw [step_push_eq g a hd hp hn hbox hn2 hfree]
  dsimp only
  refine ⟨?_, ⟨?_, ?_⟩, ?_, ⟨?_, ?_⟩, rfl, rfl⟩
  · rw [Function.update_noteq hne02, Function.update_noteq hne01,
      Function.update_same]
  · intro h; rw [if_pos h]
  · intro h
    rw [h, if_neg (by decide : BLOCK_TYPE_BOX_AIM ≠ BLOCK_TYPE_BOX)]
  · rw [Function.update_noteq hne12, Function.update_same]
  · intro h
    rw [Function.update_same, h, if_pos rfl]
  · intro h
    rw [Function.update_same, h,
      if_neg (by decide : BLOCK_TYPE_AIM ≠ BLOCK_TYPE_GROUND)]

theorem claim_C3_witness :
    isDir (1, 0) ∧ inRange gA.position ∧ inRange (vadd gA.position (1, 0)) ∧
    (gA.map (idx (vadd gA.position (1, 0))) = BLOCK_TYPE_BOX ∨
     gA.map (idx (vadd gA.position (1, 0))) = BLOCK_TYPE_BOX_AIM) ∧
    inRange (vadd (vadd gA.position (1, 0)) (1, 0)) ∧
    (gA.map (idx (vadd (vadd gA.position (1, 0)) (1, 0))) = BLOCK_TYPE_GROUND ∨
     gA.map (idx (vadd (vadd gA.position (1, 0)) (1, 0))) = BLOCK_TYPE_AIM) ∧
    ((gA.step (1, 0)).map (idx gA.position) = gA.position_type ∧
     ((gA.map (idx (vadd gA.position (1, 0))) = BLOCK_TYPE_BOX →
         (gA.step (1, 0)).position_type = BLOCK_TYPE_GROUND) ∧
      (gA.map (idx (vadd gA.position (1, 0))) = BLOCK_TYPE_BOX_AIM →
         (gA.step (1, 0)).position_type = BLOCK_TYPE_AIM)) ∧
     (gA.step (1, 0)).map (idx (vadd gA.position (1, 0))) = get_player_type (1, 0) ∧
     ((gA.map (idx (vadd (vadd gA.position (1, 0)) (1, 0))) = BLOCK_TYPE_GROUND →
         (gA.step (1, 0)).map (idx (vadd (vadd gA.position (1, 0)) (1, 0))) = BLOCK_TYPE_BOX) ∧
      (gA.map (idx (vadd (vadd gA.position (1, 0)) (1, 0))) = BLOCK_TYPE_AIM →
         (gA.step (1, 0)).map (idx (vadd (vadd gA.position (1, 0)) (1, 0))) = BLOCK_TYPE_BOX_AIM)) ∧
     (gA.step (1, 0)).position = vadd gA.position (1, 0) ∧
     (gA.step (1, 0)).update = true) := by
  have h1 : isDir (1, 0) := by decide
  have h2 : inRange gA.position := by decide
  have h3 : inRange (vadd gA.position (1, 0)) := by decide
  have h4 : gA.map (idx (vadd gA.position (1, 0))) = BLOCK_TYPE_BOX ∨
      gA.map (idx (vadd gA.position (1, 0))) = BLOCK_TYPE_BOX_AIM := by decide
  have h5 : inRange (vadd (vadd gA.position (1, 0)) (1, 0)) := by decide
  have h6 : gA.map (idx (vadd (vadd gA.position (1, 0)) (1, 0))) = BLOCK_TYPE_GROUND ∨
      gA.map (idx (vadd (vadd gA.position (1, 0)) (1, 0))) = BLOCK_TYPE_AIM := by decide
  exact ⟨h1, h2, h3, h4, h5, h6, claim_C3 gA (1, 0) h1 h2 h3 h4 h5 h6⟩

/-- Claim C4: a push attempt whose cell beyond the box is out of bounds
or not free (not Floor and not Target) is a full no-op: the state is
returned unchanged, and no error is surfaced (`step` is total). -/
theorem claim_C4 (g : Game) (a : Int × Int)
    (hn : inRange (vadd g.position a))
    (hbox : g.map (idx (vadd g.position a)) = BLOCK_TYPE_BOX ∨
            g.map (idx (vadd g.position a)) = BLOCK_TYPE_BOX_AIM)
    (hblk : ¬ inRange (vadd (vadd g.position a) a) ∨
            (g.map (idx (vadd (vadd g.position a) a)) ≠ BLOCK_TYPE_GROUND ∧
             g.map (idx (vadd (vadd g.position a) a)) ≠ BLOCK_TYPE_AIM)) :
    g.step a = g :=
  step_blocked_eq g a hn hbox hblk

theorem claim_C4_witness :
    inRange (vadd gB.position (1, 0)) ∧
    (gB.map (idx (vadd gB.position (1, 0))) = BLOCK_TYPE_BOX ∨
     gB.map (idx (vadd gB.position (1, 0))) = BLOCK_TYPE_BOX_AIM) ∧
    (¬ inRange (vadd (vadd gB.position (1, 0)) (1, 0)) ∨
     (gB.map (idx (vadd (vadd gB.position (1, 0)) (1, 0))) ≠ BLOCK_TYPE_GROUND ∧
      gB.map (idx (vadd (vadd gB.position (1, 0)) (1, 0))) ≠ BLOCK_TYPE_AIM)) ∧
    gB.step (1, 0) = gB := by
  have h1 : inRange (vadd gB.position (1, 0)) := by decide
  have h2 : gB.map (idx (vadd gB.position (1, 0))) = BLOCK_TYPE_BOX ∨
      gB.map (idx (vadd gB.position (1, 0))) = BLOCK_TYPE_BOX_AIM := by decide
  have h3 : ¬ inRange (vadd (vadd gB.position (1, 0)) (1, 0)) ∨
      (gB.map (idx (vadd (vadd gB.position (1, 0)) (1, 0))) ≠ BLOCK_TYPE_GROUND ∧
       gB.map (idx (vadd (vadd gB.position (1, 0)) (1, 0))) ≠ BLOCK_TYPE_AIM) := by
    right; constructor <;> decide
  exact ⟨h1, h2, h3, claim_C4 gB (1, 0) h1 h2 h3⟩

/-- Claim C5: if the move target `next` is out of bounds on either
axis, `step` changes nothing — the whole state (map, position,
covered type, flags, level, status, pending action) is returned
exactly as it was. -/
theorem claim_C5 (g : Game) (a : Int × Int) (hp : inRange g.position)
    (hd : isDir a) (h : ¬ inRange (vadd g.position a)) :
    g.step a = g :=
  step_out_of_range g a h

theorem claim_C5_witness :
    inRange gC.position ∧ isDir (-1, 0) ∧ ¬ inRange (vadd gC.position (-1, 0)) ∧
    gC.step (-1, 0) = gC := by
  have h1 : inRange gC.position := by decide
  have h2 : isDir (-1, 0) := by decide
  have h3 : ¬ inRange (vadd gC.position (-1, 0)) := by decide
  exact ⟨h1, h2, h3, claim_C5 gC (-1, 0) h1 h2 h3⟩

/-- Claim C2 is false of the code: the spec says a move in direction
`d` leaves the marker facing `d`, but `Game::get_player_type` maps the
rightward vector `(1,0)` to `BLOCK_TYPE_PLAYER_LEFT` and the leftward
vector `(-1,0)` to `BLOCK_TYPE_PLAYER_RIGHT` (Up and Down are correct).
Concrete evaluation: from `gA`, the plain step Left writes the
Right-facing marker at the new position, and the push Right writes the
Left-facing marker. -/
theorem claim_C2_code_bug :
    get_player_type (1, 0) = BLOCK_TYPE_PLAYER_LEFT ∧
    get_player_type (-1, 0) = BLOCK_TYPE_PLAYER_RIGHT ∧
    (gA.step (-1, 0)).map (idx (vadd gA.position (-1, 0))) = BLOCK_TYPE_PLAYER_RIGHT ∧
    (gA.step (1, 0)).map (idx (vadd gA.position (1, 0))) = BLOCK_TYPE_PLAYER_LEFT ∧
    BLOCK_TYPE_PLAYER_RIGHT ≠ BLOCK_TYPE_PLAYER_LEFT := by
  refine ⟨rfl, rfl, ?_, ?_, by decide⟩ <;> decide

/-- Claim C6: the win check returns `true` exactly when no cell of the
grid holds a plain (off-target) Box; in particular boxes resting on
targets (`BLOCK_TYPE_BOX_AIM`) do not prevent winning. -/
theorem claim_C6 (g : Game) :
    (g.win).1 = true ↔
      ∀ i j : Nat, i < MAP_SIZE → j < MAP_SIZE → g.map (i, j) ≠ BLOCK_TYPE_BOX := by
  unfold Game.win
  split_ifs with h
  · simp only [List.any_eq_true, List.mem_range, beq_iff_eq] at h
    obtain ⟨i, hi, j, hj, hm⟩ := h
    constructor
    · intro hcontra; exact absurd hcontra (by decide)
    · intro hall; exact absurd hm (hall i j hi hj)
  · simp only [List.any_eq_true, List.mem_range, beq_iff_eq] at h
    push_neg at h
    constructor
    · intro _ i j hi hj hm; exact absurd hm (h i hi j hj)
    · intro _; rfl

/-- Claim C7: when the win check succeeds the level advances by one,
wrapping from `GAME_LEVEL_COUNT` (50) back to 1, and the status is
reset to `StartPlaying` (awaiting a fresh grid load); when it fails,
level and status are untouched. -/
theorem claim_C7 (g : Game) (h1 : 1 ≤ g.level) (h2 : g.level ≤ GAME_LEVEL_COUNT) :
    ((g.win).1 = true →
      ((g.win).2.status = GameStatus.StartPlaying ∧
       (g.level < GAME_LEVEL_COUNT → (g.win).2.level = g.level + 1) ∧
       (g.level = GAME_LEVEL_COUNT → (g.win).2.level = 1))) ∧
    ((g.win).1 = false →
      ((g.win).2.level = g.level ∧ (g.win).2.status = g.status)) := by
  unfold Game.win
  split_ifs with h
  · dsimp only
    constructor
    · intro hcontra; exact absurd hcontra (by decide)
    · intro _; exact ⟨rfl, rfl⟩
  · dsimp only
    constructor
    · intro _
      refine ⟨rfl, ?_, ?_⟩
      · intro hlt
        rw [if_neg]
        unfold GAME_LEVEL_COUNT at *
        omega
      · intro heq
        rw [if_pos]
        unfold GAME_LEVEL_COUNT at *
        omega
    · intro hcontra; exact absurd hcontra (by decide)

theorem claim_C7_witness :
    1 ≤ gC.level ∧ gC.level ≤ GAME_LEVEL_COUNT ∧
    (((gC.win).1 = true →
      ((gC.win).2.status = GameStatus.StartPlaying ∧
       (gC.level < GAME_LEVEL_COUNT → (gC.win).2.level = gC.level + 1) ∧
       (gC.level = GAME_LEVEL_COUNT → (gC.win).2.level = 1))) ∧
     ((gC.win).1 = false →
      ((gC.win).2.level = gC.level ∧ (gC.win).2.status = gC.status))) := by
  have h1 : 1 ≤ gC.level := by decide
  have h2 : gC.level ≤ GAME_LEVEL_COUNT := by decide
  exact ⟨h1, h2, claim_C7 gC h1 h2⟩

/-- Claim C8: `step` preserves the player invariant — starting from a
state whose grid shows a player marker exactly at `position` (and
nowhere else) and whose covered type is Floor or Target, any of the
four directions leaves a state with exactly one player-marker cell,
located at the updated position (still in bounds), and a covered type
that is again Floor or Target. -/
theorem claim_C8 (g : Game) (a : Int × Int) (hd : isDir a)
    (hp : inRange g.position)
    (hm : isPlayerMarker (g.map (idx g.position)))
    (hother : ∀ x : Nat, x < MAP_SIZE → ∀ y : Nat, y < MAP_SIZE →
        (x, y) ≠ idx g.position → ¬ isPlayerMarker (g.map (x, y)))
    (hcov : g.position_type = BLOCK_TYPE_GROUND ∨ g.position_type = BLOCK_TYPE_AIM) :
    inRange (g.step a).position ∧
    isPlayerMarker ((g.step a).map (idx (g.step a).position)) ∧
    (∀ x : Nat, x < MAP_SIZE → ∀ y : Nat, y < MAP_SIZE →
        (x, y) ≠ idx (g.step a).position →
        ¬ isPlayerMarker ((g.step a).map (x, y))) ∧
    ((g.step a).position_type = BLOCK_TYPE_GROUND ∨
     (g.step a).position_type = BLOCK_TYPE_AIM) := by
  by_cases h1 : inRange (vadd g.position a)
  · by_cases h2 : g.map (idx (vadd g.position a)) = BLOCK_TYPE_GROUND ∨
        g.map (idx (vadd g.position a)) = BLOCK_TYPE_AIM
    · -- plain step
      rw [step_plain_eq g a hd hp h1 h2]
      dsimp only
      have hne := idx_ne_of_dir hd hp h1
      refine ⟨h1, ?_, ?_, h2⟩
      · rw [Function.update_same]
        exact get_player_type_isPlayerMarker a
      · intro x hx y hy hxy
        rw [Function.update_noteq hxy]
        by_cases hq0 : (x, y) = idx g.position
        · rw [hq0, Function.update_same]
          rcases hcov with h | h <;> rw [h] <;> decide
        · rw [Function.update_noteq hq0]
          exact hother x hx y hy hq0
    · by_cases h3 : g.map (idx (vadd g.position a)) = BLOCK_TYPE_BOX ∨
          g.map (idx (vadd g.position a)) = BLOCK_TYPE_BOX_AIM
      · by_cases h4 : inRange (vadd (vadd g.position a) a)
        · by_cases h5 : g.map (idx (vadd (vadd g.position a) a)) = BLOCK_TYPE_GROUND ∨
              g.map (idx (vadd (vadd g.position a) a)) = BLOCK_TYPE_AIM
          · -- successful push
            rw [step_push_eq g a hd hp h1 h3 h4 h5]
            dsimp only
            have hne01 := idx_ne_of_dir hd hp h1
            have hne12 := idx_ne_of_dir hd h1 h4
            have hne02 := idx_ne_of_dir2 hd hp h4
            refine ⟨h1, ?_, ?_, ?_⟩
            · rw [Function.update_noteq hne12, Function.update_same]
              exact get_player_type_isPlayerMarker a
            · intro x hx y hy hxy
              by_cases hq2 : (x, y) = idx (vadd (vadd g.position a) a)
              · rw [hq2, Function.update_same]
                split_ifs <;> decide
              · rw [Function.update_noteq hq2, Function.update_noteq hxy]
                by_cases hq0 : (x, y) = idx g.position
                · rw [hq0, Function.update_same]
                  rcases hcov with h | h <;> rw [h] <;> decide
                · rw [Function.update_noteq hq0]
                  exact hother x hx y hy hq0
            · split_ifs
              · exact Or.inl rfl
              · exact Or.inr rfl
          · rw [step_blocked_eq g a h1 h3 (Or.inr (not_or.mp h5))]
            exact ⟨hp, hm, hother, hcov⟩
        · rw [step_blocked_eq g a h1 h3 (Or.inl h4)]
          exact ⟨hp, hm, hother, hcov⟩
      · rw [step_wall_eq g a h1
          ⟨(not_or.mp h2).1, (not_or.mp h2).2, (not_or.mp h3).1, (not_or.mp h3).2⟩]
        exact ⟨hp, hm, hother, hcov⟩
  · rw [step_out_of_range g a h1]
    exact ⟨hp, hm, hother, hcov⟩

theorem claim_C8_witness :
    isDir (0, 1) ∧ inRange gA.position ∧
    isPlayerMarker (gA.map (idx gA.position)) ∧
    (∀ x : Nat, x < MAP_SIZE → ∀ y : Nat, y < MAP_SIZE →
        (x, y) ≠ idx gA.position → ¬ isPlayerMarker (gA.map (x, y))) ∧
    (gA.position_type = BLOCK_TYPE_GROUND ∨ gA.position_type = BLOCK_TYPE_AIM) ∧
    (inRange (gA.step (0, 1)).position ∧
     isPlayerMarker ((gA.step (0, 1)).map (idx (gA.step (0, 1)).position)) ∧
     (∀ x : Nat, x < MAP_SIZE → ∀ y : Nat, y < MAP_SIZE →
         (x, y) ≠ idx (gA.step (0, 1)).position →
         ¬ isPlayerMarker ((gA.step (0, 1)).map (x, y))) ∧
     ((gA.step (0, 1)).position_type = BLOCK_TYPE_GROUND ∨
      (gA.step (0, 1)).position_type = BLOCK_TYPE_AIM)) := by
  have h1 : isDir (0, 1) := by decide
  have h2 : inRange gA.position := by decide
  have h3 : isPlayerMarker (gA.map (idx gA.position)) := by decide
  have h4 : ∀ x : Nat, x < MAP_SIZE → ∀ y : Nat, y < MAP_SIZE →
      (x, y) ≠ idx gA.position → ¬ isPlayerMarker (gA.map (x, y)) := by decide
  have h5 : gA.position_type = BLOCK_TYPE_GROUND ∨ gA.position_type = BLOCK_TYPE_AIM := by
    decide
  exact ⟨h1, h2, h3, h4, h5, claim_C8 gA (0, 1) h1 h2 h3 h4 h5⟩

/-! ### Box conservation -/

/-- The index set of the 20×20 grid. -/
def cells : Finset (Nat × Nat) := Finset.range MAP_SIZE ×ˢ Finset.range MAP_SIZE

/-- Indicator: the cell value holds a box (plain or on target). -/
def boxInd (v : Nat) : Nat :=
  if v = BLOCK_TYPE_BOX ∨ v = BLOCK_TYPE_BOX_AIM then 1 else 0

/-- Number of grid cells holding a box (plain or on target). -/
def boxCount (m : Nat × Nat → Nat) : Nat := ∑ p ∈ cells, boxInd (m p)

lemma boxInd_eq_one {v : Nat} (h : v = BLOCK_TYPE_BOX ∨ v = BLOCK_TYPE_BOX_AIM) :
    boxInd v = 1 := if_pos h

lemma boxInd_eq_zero {v : Nat} (h : ¬ (v = BLOCK_TYPE_BOX ∨ v = BLOCK_TYPE_BOX_AIM)) :
    boxInd v = 0 := if_neg h

lemma isPlayerMarker_not_box {v : Nat} (h : isPlayerMarker v) :
    ¬ (v = BLOCK_TYPE_BOX ∨ v = BLOCK_TYPE_BOX_AIM) := by
  rcases h with h | h | h | h <;> rw [h] <;> decide

lemma idx_mem_cells {p : Int × Int} (h : inRange p) : idx p ∈ cells := by
  unfold inRange MAP_SIZE at h
  simp only [cells, idx, Finset.mem_product, Finset.mem_range, MAP_SIZE]
  omega

/-- Writing two distinct cells whose box-indicator total is unchanged
preserves the box count. -/
lemma boxCount_update2 (m : Nat × Nat → Nat) (p q : Nat × Nat) (vp vq : Nat)
    (hp : p ∈ cells) (hq : q ∈ cells) (hpq : p ≠ q)
    (hbal : boxInd vp + boxInd vq = boxInd (m p) + boxInd (m q)) :
    boxCount (Function.update (Function.update m p vp) q vq) = boxCount m := by
  have hqe : p ∈ cells.erase q := Finset.mem_erase.mpr ⟨hpq, hp⟩
  have hFq : Function.update (Function.update m p vp) q vq q = vq :=
    Function.update_same _ _ _
  have hFp : Function.update (Function.update m p vp) q vq p = vp := by
    rw [Function.update_noteq hpq, Function.update_same]
  have e1 : boxCount (Function.update (Function.update m p vp) q vq) =
      boxInd vq + (boxInd vp +
        ∑ r ∈ (cells.erase q).erase p,
          boxInd (Function.update (Function.update m p vp) q vq r)) := by
    unfold boxCount
    rw [← Finset.add_sum_erase _ _ hq, ← Finset.add_sum_erase _ _ hqe, hFq, hFp]
  have e2 : boxCount m =
      boxInd (m q) + (boxInd (m p) +
        ∑ r ∈ (cells.erase q).erase p, boxInd (m r)) := by
    unfold boxCount
    rw [← Finset.add_sum_erase _ _ hq, ← Finset.add_sum_erase _ _ hqe]
  have e3 : ∑ r ∈ (cells.erase q).erase p,
      boxInd (Function.update (Function.update m p vp) q vq r) =
      ∑ r ∈ (cells.erase q).erase p, boxInd (m r) := by
    refine Finset.sum_congr rfl (fun r hr => ?_)
    obtain ⟨hrp, hr1⟩ := Finset.mem_erase.mp hr
    obtain ⟨hrq, _⟩ := Finset.mem_erase.mp hr1
    rw [Function.update_noteq hrq, Function.update_noteq hrp]
  rw [e1, e2, e3]
  omega

/-- Writing three pairwise distinct cells whose box-indicator total is
unchanged preserves the box count. -/
lemma boxCount_update3 (m : Nat × Nat → Nat) (p q r : Nat × Nat) (vp vq vr : Nat)
    (hp : p ∈ cells) (hq : q ∈ cells) (hr : r ∈ cells)
    (hpq : p ≠ q) (hpr : p ≠ r) (hqr : q ≠ r)
    (hbal : boxInd vp + boxInd vq + boxInd vr =
            boxInd (m p) + boxInd (m q) + boxInd (m r)) :
    boxCount (Function.update (Function.update (Function.update m p vp) q vq) r vr) =
      boxCount m := by
  have hqe : q ∈ cells.erase r := Finset.mem_erase.mpr ⟨hqr, hq⟩
  have hpe : p ∈ (cells.erase r).erase q :=
    Finset.mem_erase.mpr ⟨hpq, Finset.mem_erase.mpr ⟨hpr, hp⟩⟩
  have hFr : Function.update (Function.update (Function.update m p vp) q vq) r vr r = vr :=
    Function.update_same _ _ _
  have hFq : Function.update (Function.update (Function.update m p vp) q vq) r vr q = vq := by
    rw [Function.update_noteq hqr, Function.update_same]
  have hFp : Function.update (Function.update (Function.update m p vp) q vq) r vr p = vp := by
    rw [Function.update_noteq hpr, Function.update_noteq hpq, Function.update_same]
  have e1 : boxCount (Function.update (Function.update (Function.update m p vp) q vq) r vr) =
      boxInd vr + (boxInd vq + (boxInd vp +
        ∑ s ∈ ((cells.erase r).erase q).erase p,
          boxInd (Function.update (Function.update (Function.update m p vp) q vq) r vr s))) := by
    unfold boxCount
    rw [← Finset.add_sum_erase _ _ hr, ← Finset.add_sum_erase _ _ hqe,
      ← Finset.add_sum_erase _ _ hpe, hFr, hFq, hFp]
  have e2 : boxCount m =
      boxInd (m r) + (boxInd (m q) + (boxInd (m p) +
        ∑ s ∈ ((cells.erase r).erase q).erase p, boxInd (m s))) := by
    unfold boxCount
    rw [← Finset.add_sum_erase _ _ hr, ← Finset.add_sum_erase _ _ hqe,
      ← Finset.add_sum_erase _ _ hpe]
  have e3 : ∑ s ∈ ((cells.erase r).erase q).erase p,
      boxInd (Function.update (Function.update (Function.update m p vp) q vq) r vr s) =
      ∑ s ∈ ((cells.erase r).erase q).erase p, boxInd (m s) := by
    refine Finset.sum_congr rfl (fun s hs => ?_)
    obtain ⟨hsp, hs1⟩ := Finset.mem_erase.mp hs
    obtain ⟨hsq, hs2⟩ := Finset.mem_erase.mp hs1
    obtain ⟨hsr, _⟩ := Finset.mem_erase.mp hs2
    rw [Function.update_noteq hsr, Function.update_noteq hsq, Function.update_noteq hsp]
  rw [e1, e2, e3]
  omega

/-- Claim C10 (implicit): `step` conserves the number of box cells
(plain Box plus Box-on-Target) whenever the state satisfies the player
invariant's typing assumptions. -/
theorem claim_C10 (g : Game) (a : Int × Int) (hd : isDir a)
    (hp : inRange g.position)
    (hm : isPlayerMarker (g.map (idx g.position)))
    (hcov : g.position_type = BLOCK_TYPE_GROUND ∨ g.position_type = BLOCK_TYPE_AIM) :
    boxCount (g.step a).map = boxCount g.map := by
  by_cases h1 : inRange (vadd g.position a)
  · by_cases h2 : g.map (idx (vadd g.position a)) = BLOCK_TYPE_GROUND ∨
        g.map (idx (vadd g.position a)) = BLOCK_TYPE_AIM
    · rw [step_plain_eq g a hd hp h1 h2]
      dsimp only
      refine boxCount_update2 g.map (idx g.position) (idx (vadd g.position a))
        g.position_type (get_player_type a)
        (idx_mem_cells hp) (idx_mem_cells h1) (idx_ne_of_dir hd hp h1) ?_
      rw [boxInd_eq_zero (isPlayerMarker_not_box hm),
        boxInd_eq_zero (not_or.mpr (get_player_type_ne_box a)),
        boxInd_eq_zero, boxInd_eq_zero]
      · rcases h2 with h | h <;> rw [h] <;> decide
      · rcases hcov with h | h <;> rw [h] <;> decide
    · by_cases h3 : g.map (idx (vadd g.position a)) = BLOCK_TYPE_BOX ∨
          g.map (idx (vadd g.position a)) = BLOCK_TYPE_BOX_AIM
      · by_cases h4 : inRange (vadd (vadd g.position a) a)
        · by_cases h5 : g.map (idx (vadd (vadd g.position a) a)) = BLOCK_TYPE_GROUND ∨
              g.map (idx (vadd (vadd g.position a) a)) = BLOCK_TYPE_AIM
          · rw [step_push_eq g a hd hp h1 h3 h4 h5]
            dsimp only
            refine boxCount_update3 g.map (idx g.position) (idx (vadd g.position a))
              (idx (vadd (vadd g.position a) a))
              g.position_type
              (get_player_type a)
              (if g.map (idx (vadd (vadd g.position a) a)) = BLOCK_TYPE_GROUND
               then BLOCK_TYPE_BOX else BLOCK_TYPE_BOX_AIM)
              (idx_mem_cells hp) (idx_mem_cells h1) (idx_mem_cells h4)
              (idx_ne_of_dir hd hp h1) (idx_ne_of_dir2 hd hp h4)
              (idx_ne_of_dir hd h1 h4) ?_
            rw [boxInd_eq_zero (isPlayerMarker_not_box hm),
              boxInd_eq_zero (not_or.mpr (get_player_type_ne_box a)),
              boxInd_eq_one h3,
              @boxInd_eq_zero g.position_type
                (by rcases hcov with h | h <;> rw [h] <;> decide),
              @boxInd_eq_one (if g.map (idx (vadd (vadd g.position a) a)) = BLOCK_TYPE_GROUND
                then BLOCK_TYPE_BOX else BLOCK_TYPE_BOX_AIM)
                (by split_ifs with hh
                    · exact Or.inl rfl
                    · exact Or.inr rfl),
              @boxInd_eq_zero (g.map (idx (vadd (vadd g.position a) a)))
                (by rcases h5 with h | h <;> rw [h] <;> decide)]
          · rw [step_blocked_eq g a h1 h3 (Or.inr (not_or.mp h5))]
        · rw [step_blocked_eq g a h1 h3 (Or.inl h4)]
      · rw [step_wall_eq g a h1
          ⟨(not_or.mp h2).1, (not_or.mp h2).2, (not_or.mp h3).1, (not_or.mp h3).2⟩]
  · rw [step_out_of_range g a h1]

theorem claim_C10_witness :
    isDir (1, 0) ∧ inRange gA.position ∧
    isPlayerMarker (gA.map (idx gA.position)) ∧
    (gA.position_type = BLOCK_TYPE_GROUND ∨ gA.position_type = BLOCK_TYPE_AIM) ∧
    boxCount (gA.step (1, 0)).map = boxCount gA.map := by
  have h1 : isDir (1, 0) := by decide
  have h2 : inRange gA.position := by decide
  have h3 : isPlayerMarker (gA.map (idx gA.position)) := by decide
  have h4 : gA.position_type = BLOCK_TYPE_GROUND ∨ gA.position_type = BLOCK_TYPE_AIM := by
    decide
  exact ⟨h1, h2, h3, h4, claim_C10 gA (1, 0) h1 h2 h3 h4⟩

/-! ### The level loader (`MapAssetsLoader::load`) -/

/-- `text.replace("\r\n", "\n")`, scanning left to right. -/
def normalizeText : List Char → List Char
  | [] => []
  | [c] => [c]
  | c1 :: c2 :: rest =>
    if c1 = '\r' ∧ c2 = '\n' then '\n' :: normalizeText rest
    else c1 :: normalizeText (c2 :: rest)

/-- `(text[index..index+1]).parse::<usize>().unwrap_or(0)` for a single
character: its digit value when it is an ASCII digit, `0` otherwise. -/
def parseDigit (c : Char) : Nat :=
  if c.isDigit then c.toNat - '0'.toNat else 0

/-- The `(i, j)` pairs visited by the loader's nested
`for i in 0..MAP_SIZE { for j in 0..MAP_SIZE { ... } }` loops, in loop
order. -/
def loadPairs : List (Nat × Nat) :=
  (List.range MAP_SIZE).flatMap (fun i => (List.range MAP_SIZE).map (fun j => (i, j)))

/-- One iteration of the loader's inner loop body:
`index = i * (MAP_SIZE + 1) + j`,
`value[j][MAP_SIZE - i - 1] = parse(text[index]);` and the
`position = (j, MAP_SIZE - i - 1)` assignment when the just-stored
value is the Down-facing player marker. -/
def loadStep (t : List Char) (acc : (Nat × Nat → Nat) × (Int × Int))
    (ij : Nat × Nat) : (Nat × Nat → Nat) × (Int × Int) :=
  let v := parseDigit (t.getD (ij.1 * (MAP_SIZE + 1) + ij.2) ' ')
  (Function.update acc.1 (ij.2, MAP_SIZE - ij.1 - 1) v,
   if v = BLOCK_TYPE_PLAYER_DOWN
   then ((ij.2 : Int), ((MAP_SIZE - ij.1 - 1 : Nat) : Int))
   else acc.2)

/-- `MapAssetsLoader::load`: normalize CRLF, then run the nested loops
over a zeroed `value` array and `position = Vec2::ZERO`. -/
def load (bytes : List Char) : (Nat × Nat → Nat) × (Int × Int) :=
  loadPairs.foldl (loadStep (normalizeText bytes)) ((fun _ => 0), ((0 : Int), (0 : Int)))

/-- A level text of rows, each terminated by one newline. -/
def flattenRows (rows : List (List Char)) : List Char :=
  rows.flatMap (fun r => r ++ ['\n'])

lemma normalizeText_of_no_cr : ∀ (t : List Char), (∀ c ∈ t, c ≠ '\r') →
    normalizeText t = t := by
  intro t
  induction t with
  | nil => intro _; rfl
  | cons c rest ih =>
    intro h
    cases rest with
    | nil => rfl
    | cons c2 rest2 =>
      simp only [normalizeText]
      rw [if_neg (fun hc => h c (List.mem_cons_self c _) hc.1)]
      rw [ih (fun x hx => h x (List.mem_cons_of_mem c hx))]

lemma flattenRows_getD (rows : List (List Char))
    (hrow : ∀ r ∈ rows, r.length = MAP_SIZE) :
    ∀ i j, i < rows.length → j < MAP_SIZE →
      (flattenRows rows).getD (i * (MAP_SIZE + 1) + j) ' ' =
        (rows.getD i []).getD j ' ' := by
  induction rows with
  | nil => intro i j hi _; exact absurd hi (Nat.not_lt_zero i)
  | cons r rest ih =>
    intro i j hi hj
    have hr : r.length = MAP_SIZE := hrow r (List.mem_cons_self r rest)
    have hlen : (r ++ ['\n']).length = MAP_SIZE + 1 := by
      simp [hr]
    cases i with
    | zero =>
      simp only [flattenRows, List.flatMap_cons, Nat.zero_mul, Nat.zero_add]
      rw [List.getD_append _ _ _ _ (by rw [hlen]; unfold MAP_SIZE at *; omega),
        List.getD_append _ _ _ _ (by omega)]
      rfl
    | succ n =>
      have hle : (r ++ ['\n']).length ≤ (n + 1) * (MAP_SIZE + 1) + j := by
        rw [hlen]; unfold MAP_SIZE; omega
      rw [show flattenRows (r :: rest) = (r ++ ['\n']) ++ flattenRows rest from rfl]
      rw [List.getD_append_right _ _ _ _ hle, hlen]
      have harith : (n + 1) * (MAP_SIZE + 1) + j - (MAP_SIZE + 1) =
          n * (MAP_SIZE + 1) + j := by
        unfold MAP_SIZE; omega
      rw [harith]
      have hn : n < rest.length := by
        simp only [List.length_cons] at hi; omega
      rw [ih (fun q hq => hrow q (List.mem_cons_of_mem r hq)) n j hn hj]
      rfl

lemma load_foldl_map_untouched (t : List Char) :
    ∀ (ps : List (Nat × Nat)) (acc : (Nat × Nat → Nat) × (Int × Int)) (k : Nat × Nat),
      (∀ p ∈ ps, ((p.2, MAP_SIZE - p.1 - 1) : Nat × Nat) ≠ k) →
      (ps.foldl (loadStep t) acc).1 k = acc.1 k := by
  intro ps
  induction ps with
  | nil => intro acc k _; rfl
  | cons p rest ih =>
    intro acc k h
    rw [List.foldl_cons, ih _ k (fun q hq => h q (List.mem_cons_of_mem p hq))]
    simp only [loadStep]
    exact Function.update_noteq (Ne.symm (h p (List.mem_cons_self p rest))) _ _

lemma load_foldl_pos_untouched (t : List Char) :
    ∀ (ps : List (Nat × Nat)) (acc : (Nat × Nat → Nat) × (Int × Int)),
      (∀ p ∈ ps, parseDigit (t.getD (p.1 * (MAP_SIZE + 1) + p.2) ' ') ≠
        BLOCK_TYPE_PLAYER_DOWN) →
      (ps.foldl (loadStep t) acc).2 = acc.2 := by
  intro ps
  induction ps with
  | nil => intro acc _; rfl
  | cons p rest ih =>
    intro acc h
    rw [List.foldl_cons, ih _ (fun q hq => h q (List.mem_cons_of_mem p hq))]
    simp only [loadStep]
    rw [if_neg (h p (List.mem_cons_self p rest))]

lemma mem_loadPairs {p : Nat × Nat} :
    p ∈ loadPairs ↔ p.1 < MAP_SIZE ∧ p.2 < MAP_SIZE := by
  obtain ⟨i, j⟩ := p
  simp only [loadPairs, List.mem_flatMap, List.mem_map, List.mem_range, Prod.mk.injEq]
  constructor
  · rintro ⟨a, ha, b, hb, rfl, rfl⟩
    exact ⟨ha, hb⟩
  · rintro ⟨hi, hj⟩
    exact ⟨i, hi, j, hj, rfl, rfl⟩

lemma loadPairs_nodup : loadPairs.Nodup := by
  unfold loadPairs
  refine List.nodup_flatMap.mpr ⟨?_, ?_⟩
  · intro i _
    exact (List.nodup_range MAP_SIZE).map
      (fun a b hab => congrArg Prod.snd hab)
  · refine (List.pairwise_lt_range MAP_SIZE).imp ?_
    intro a b hab
    intro x hx1 hx2
    simp only [List.mem_map, List.mem_range] at hx1 hx2
    obtain ⟨j1, _, rfl⟩ := hx1
    obtain ⟨j2, _, heq⟩ := hx2
    exact absurd (congrArg Prod.fst heq) (by simp; omega)

lemma loadPairs_split {p : Nat × Nat} (hp : p ∈ loadPairs) :
    ∃ l₁ l₂, loadPairs = l₁ ++ p :: l₂ ∧ ∀ q ∈ l₂, q ≠ p := by
  obtain ⟨l₁, l₂, he⟩ := List.append_of_mem hp
  refine ⟨l₁, l₂, he, ?_⟩
  have hnd := loadPairs_nodup
  rw [he] at hnd
  have hpl₂ : p ∉ l₂ := (List.nodup_cons.mp (hnd.of_append_right)).1
  intro q hq hqp
  exact hpl₂ (hqp ▸ hq)

lemma load_value_eq (t : List Char) (i j : Nat)
    (hi : i < MAP_SIZE) (hj : j < MAP_SIZE) :
    (loadPairs.foldl (loadStep t) ((fun _ => 0), ((0 : Int), (0 : Int)))).1
        (j, MAP_SIZE - i - 1) =
      parseDigit (t.getD (i * (MAP_SIZE + 1) + j) ' ') := by
  have hp : (i, j) ∈ loadPairs := mem_loadPairs.mpr ⟨hi, hj⟩
  obtain ⟨l₁, l₂, he, hl₂⟩ := loadPairs_split hp
  have hkeys : ∀ q ∈ l₂, ((q.2, MAP_SIZE - q.1 - 1) : Nat × Nat) ≠
      ((j, MAP_SIZE - i - 1) : Nat × Nat) := by
    intro q hq hk
    have hqmem : q ∈ loadPairs := by
      rw [he]
      exact List.mem_append_right _ (List.mem_cons_of_mem _ hq)
    obtain ⟨hq1, hq2⟩ := mem_loadPairs.mp hqmem
    apply hl₂ q hq
    obtain ⟨q1, q2⟩ := q
    simp only [Prod.mk.injEq] at hk ⊢
    unfold MAP_SIZE at *
    omega
  rw [he, List.foldl_append, List.foldl_cons,
    load_foldl_map_untouched t l₂ _ _ hkeys]
  simp only [loadStep]
  exact Function.update_same _ _ _

lemma load_position_eq (t : List Char) (i j : Nat)
    (hi : i < MAP_SIZE) (hj : j < MAP_SIZE)
    (h5 : parseDigit (t.getD (i * (MAP_SIZE + 1) + j) ' ') = BLOCK_TYPE_PLAYER_DOWN)
    (huniq : ∀ i' j', i' < MAP_SIZE → j' < MAP_SIZE →
        parseDigit (t.getD (i' * (MAP_SIZE + 1) + j') ' ') = BLOCK_TYPE_PLAYER_DOWN →
        (i', j') = (i, j)) :
    (loadPairs.foldl (loadStep t) ((fun _ => 0), ((0 : Int), (0 : Int)))).2 =
      ((j : Int), ((MAP_SIZE - i - 1 : Nat) : Int)) := by
  have hp : (i, j) ∈ loadPairs := mem_loadPairs.mpr ⟨hi, hj⟩
  obtain ⟨l₁, l₂, he, hl₂⟩ := loadPairs_split hp
  have hrest : ∀ q ∈ l₂, parseDigit (t.getD (q.1 * (MAP_SIZE + 1) + q.2) ' ') ≠
      BLOCK_TYPE_PLAYER_DOWN := by
    intro q hq hcon
    have hqmem : q ∈ loadPairs := by
      rw [he]
      exact List.mem_append_right _ (List.mem_cons_of_mem _ hq)
    obtain ⟨hq1, hq2⟩ := mem_loadPairs.mp hqmem
    have hqij := huniq q.1 q.2 hq1 hq2 hcon
    exact hl₂ q hq hqij
  rw [he, List.foldl_append, List.foldl_cons,
    load_foldl_pos_untouched t l₂ _ hrest]
  simp only [loadStep]
  rw [if_pos h5]

/-- Claim C9: for a well-formed level text (`MAP_SIZE` rows of
`MAP_SIZE` characters, each row followed by one newline, no carriage
returns remaining), the loader stores the parsed digit of text row `i`,
column `j` into grid cell `(j, MAP_SIZE - 1 - i)` (row inversion), with
unparseable characters stored as 0 (what `parseDigit` yields), and
sets the start position to `(j, MAP_SIZE - 1 - i)` for the unique cell
whose parsed value is the Down-facing player marker (5). -/
theorem claim_C9 (rows : List (List Char)) (i0 j0 : Nat)
    (hlen : rows.length = MAP_SIZE)
    (hrow : ∀ r ∈ rows, r.length = MAP_SIZE)
    (hcr : ∀ r ∈ rows, ∀ c ∈ r, c ≠ '\r')
    (hi0 : i0 < MAP_SIZE) (hj0 : j0 < MAP_SIZE)
    (h5 : parseDigit ((rows.getD i0 []).getD j0 ' ') = BLOCK_TYPE_PLAYER_DOWN)
    (huniq : ∀ i, i < MAP_SIZE → ∀ j, j < MAP_SIZE →
        parseDigit ((rows.getD i []).getD j ' ') = BLOCK_TYPE_PLAYER_DOWN →
        (i, j) = (i0, j0)) :
    (∀ i j, i < MAP_SIZE → j < MAP_SIZE →
        (load (flattenRows rows)).1 (j, MAP_SIZE - i - 1) =
          parseDigit ((rows.getD i []).getD j ' ')) ∧
    (load (flattenRows rows)).2 = ((j0 : Int), ((MAP_SIZE - i0 - 1 : Nat) : Int)) := by
  have hnocr : ∀ c ∈ flattenRows rows, c ≠ '\r' := by
    intro c hc
    simp only [flattenRows, List.mem_flatMap] at hc
    obtain ⟨r, hr, hc2⟩ := hc
    rcases List.mem_append.mp hc2 with h | h
    · exact hcr r hr c h
    · simp only [List.mem_singleton] at h
      rw [h]; decide
  have hgetD := flattenRows_getD rows hrow
  unfold load
  rw [normalizeText_of_no_cr _ hnocr]
  constructor
  · intro i j hi hj
    rw [load_value_eq (flattenRows rows) i j hi hj,
      hgetD i j (by rw [hlen]; exact hi) hj]
  · refine load_position_eq (flattenRows rows) i0 j0 hi0 hj0 ?_ ?_
    · rw [hgetD i0 j0 (by rw [hlen]; exact hi0) hj0]
      exact h5
    · intro i j hi hj hpd
      refine huniq i hi j hj ?_
      rw [← hgetD i j (by rw [hlen]; exact hi) hj]
      exact hpd

/-- Sample well-formed level text: all ground except the Down-facing
player marker at text row 2, column 3. -/
def sampleRows : List (List Char) :=
  (List.range MAP_SIZE).map (fun i =>
    (List.range MAP_SIZE).map (fun j => if i = 2 ∧ j = 3 then '5' else '2'))

theorem claim_C9_witness :
    sampleRows.length = MAP_SIZE ∧
    (∀ r ∈ sampleRows, r.length = MAP_SIZE) ∧
    (∀ r ∈ sampleRows, ∀ c ∈ r, c ≠ '\r') ∧
    2 < MAP_SIZE ∧ 3 < MAP_SIZE ∧
    parseDigit ((sampleRows.getD 2 []).getD 3 ' ') = BLOCK_TYPE_PLAYER_DOWN ∧
    (∀ i, i < MAP_SIZE → ∀ j, j < MAP_SIZE →
        parseDigit ((sampleRows.getD i []).getD j ' ') = BLOCK_TYPE_PLAYER_DOWN →
        (i, j) = (2, 3)) ∧
    ((∀ i j, i < MAP_SIZE → j < MAP_SIZE →
        (load (flattenRows sampleRows)).1 (j, MAP_SIZE - i - 1) =
          parseDigit ((sampleRows.getD i []).getD j ' ')) ∧
     (load (flattenRows sampleRows)).2 =
       ((3 : Int), ((MAP_SIZE - 2 - 1 : Nat) : Int))) := by
  have h1 : sampleRows.length = MAP_SIZE := by decide
  have h2 : ∀ r ∈ sampleRows, r.length = MAP_SIZE := by decide
  have h3 : ∀ r ∈ sampleRows, ∀ c ∈ r, c ≠ '\r' := by decide
  have h4 : 2 < MAP_SIZE := by decide
  have h5 : 3 < MAP_SIZE := by decide
  have h6 : parseDigit ((sampleRows.getD 2 []).getD 3 ' ') = BLOCK_TYPE_PLAYER_DOWN := by
    decide
  have h7 : ∀ i, i < MAP_SIZE → ∀ j, j < MAP_SIZE →
      parseDigit ((sampleRows.getD i []).getD j ' ') = BLOCK_TYPE_PLAYER_DOWN →
      (i, j) = (2, 3) := by decide
  exact ⟨h1, h2, h3, h4, h5, h6, h7,
    claim_C9 sampleRows 2 3 h1 h2 h3 h4 h5 h6 h7⟩
